import Mathlib

/-!
Shallow embedding of the SmartBite order lifecycle code: the `OrderContext`
provider (`createOrder`, `updateOrderStatus`, `getAvailableDeliveries`), the
delivery-jobs page handlers (`handleAcceptDelivery`, `handleCompleteDelivery`)
and the customer checkout handler (`handlePlaceOrder`) that splits the cart
into one order per restaurant.  JavaScript timestamps (`Date.now()`) are
modelled by a natural-number clock passed explicitly; the store held in React
state is a `List Order`.
-/

namespace SmartBite

/-- The six values of `Order['status']`. -/
inductive OrderStatus where
  | pending
  | preparing
  | ready
  | in_transit
  | delivered
  | cancelled
deriving DecidableEq

/-- A cart line as built by `handleAddToCart` and stored in `CartContext`:
the menu item's id, name, price and image, the originating restaurant's id
and name, and the chosen quantity. -/
structure CartItem where
  id : String
  name : String
  price : Nat
  quantity : Nat
  restaurantId : String
  restaurantName : String
  image : String
deriving DecidableEq

/-- The `Order` interface of `OrderContext`.  `agentId` and `agentName` are
the optional fields (`undefined` is `none`). -/
structure Order where
  id : String
  customerId : String
  customerName : String
  restaurantId : String
  restaurantName : String
  items : List CartItem
  total : Nat
  status : OrderStatus
  createdAt : Nat
  updatedAt : Nat
  deliveryAddress : String
  phone : String
  agentId : Option String
  agentName : Option String
deriving DecidableEq

/-- JavaScript truthiness of the optional string fields: `undefined` and the
empty string are falsy, every other string is truthy. -/
def truthy : Option String → Bool
  | none => false
  | some s => !(s == "")

/-- `Omit<Order, 'id' | 'createdAt' | 'updatedAt'>`, the argument of
`createOrder`; the optional agent fields default to absent. -/
structure OrderData where
  customerId : String
  customerName : String
  restaurantId : String
  restaurantName : String
  items : List CartItem
  total : Nat
  status : OrderStatus
  deliveryAddress : String
  phone : String
  agentId : Option String := none
  agentName : Option String := none
deriving DecidableEq

/-- The rewrite one matching order receives inside `updateOrderStatus`:
`status` and `updatedAt` always change, and the spread
`...(agentId && \x7b agentId, agentName \x7d)` additionally sets the agent
fields when the optional `agentId` argument is truthy. -/
def applyStatusUpdate (status : OrderStatus) (agentId : Option String) (now : Nat)
    (o : Order) : Order :=
  if truthy agentId then
    { o with status := status, updatedAt := now, agentId := agentId,
             agentName := agentId.map (fun a => "Agent " ++ a) }
  else
    { o with status := status, updatedAt := now }

/-- `updateOrderStatus(orderId, status, agentId?)`: maps over the stored
orders and rewrites every order whose id matches; all other orders are
returned unchanged and no error is ever reported. -/
def updateOrderStatus (orders : List Order) (orderId : String) (status : OrderStatus)
    (agentId : Option String) (now : Nat) : List Order :=
  orders.map (fun o => if o.id = orderId then applyStatusUpdate status agentId now o else o)

/-- The callback registered by `createOrder` via `setTimeout(..., 30000)`:
which order it targets and the delay in milliseconds. -/
structure ScheduledUpdate where
  orderId : String
  delayMs : Nat
deriving DecidableEq

/-- The new `Order` built by `createOrder`: the id is `Date.now().toString()`
and both timestamps are the creation instant. -/
def newOrderFromData (d : OrderData) (now : Nat) : Order :=
  { id := toString now, customerId := d.customerId, customerName := d.customerName,
    restaurantId := d.restaurantId, restaurantName := d.restaurantName,
    items := d.items, total := d.total, status := d.status,
    createdAt := now, updatedAt := now,
    deliveryAddress := d.deliveryAddress, phone := d.phone,
    agentId := d.agentId, agentName := d.agentName }

/-- `createOrder(orderData)`: prepends the new order to the store
(`setOrders(prev => [newOrder, ...prev])`) and schedules
`updateOrderStatus(orderId, 'preparing')` to run 30000 ms later.
Returns the new store, the new order id, and the scheduled callback. -/
def createOrder (orders : List Order) (d : OrderData) (now : Nat) :
    List Order × String × ScheduledUpdate :=
  (newOrderFromData d now :: orders, toString now,
   { orderId := toString now, delayMs := 30000 })

/-- Firing the callback scheduled by `createOrder`: it runs
`updateOrderStatus(orderId, 'preparing')` with no precondition on the order's
state at that moment. -/
def fireScheduledUpdate (orders : List Order) (t : ScheduledUpdate) (now : Nat) :
    List Order :=
  updateOrderStatus orders t.orderId OrderStatus.preparing none now

/-- `getAvailableDeliveries()`: the stored orders with status `ready` and a
falsy `agentId`, kept in store order. -/
def getAvailableDeliveries (orders : List Order) : List Order :=
  orders.filter (fun o => decide (o.status = OrderStatus.ready) && !truthy o.agentId)

/-- The logged-in user from `useAuth`. -/
structure User where
  id : String
  name : String
deriving DecidableEq

/-- `handleAcceptDelivery(orderId)` on the delivery-jobs page: when a user is
logged in it runs `updateOrderStatus(orderId, 'in_transit', user.id)`,
otherwise it does nothing. -/
def handleAcceptDelivery (orders : List Order) (user : Option User) (orderId : String)
    (now : Nat) : List Order :=
  match user with
  | some u => updateOrderStatus orders orderId OrderStatus.in_transit (some u.id) now
  | none => orders

/-- `handleCompleteDelivery(orderId)` on the delivery-jobs page: the session
user is in scope in the component but the handler does not consult it; it runs
`updateOrderStatus(orderId, 'delivered')` unconditionally. -/
def handleCompleteDelivery (orders : List Order) (_user : Option User)
    (orderId : String) (now : Nat) : List Order :=
  updateOrderStatus orders orderId OrderStatus.delivered none now

/-- A catalog menu item with its availability flag (`isAvailable`), as served
by the menu provider and filtered on the restaurant page.  The order-creation
code in `OrderContext` never consults it. -/
structure MenuItem where
  id : String
  name : String
  price : Nat
  isAvailable : Bool
deriving DecidableEq

/-- Catalog lookup: the cart line references a menu item that currently
exists and is available. -/
def itemAvailable (catalog : List MenuItem) (i : CartItem) : Bool :=
  catalog.any (fun m => m.id == i.id && m.isAvailable)

/-- One entry of the accumulator built by the `items.reduce` in
`handlePlaceOrder`: a restaurant id and name together with the lines pushed
for that restaurant. -/
structure RestaurantGroup where
  restaurantId : String
  restaurantName : String
  items : List CartItem
deriving DecidableEq

/-- Boolean test used when regrouping: the line belongs to restaurant `r`. -/
def sameRestaurant (r : String) (i : CartItem) : Bool :=
  i.restaurantId == r

/-- The fresh accumulator entry opened for a line whose restaurant has no
group yet. -/
def newGroup (item : CartItem) : RestaurantGroup :=
  { restaurantId := item.restaurantId, restaurantName := item.restaurantName,
    items := [item] }

/-- One step of the `items.reduce` in `handlePlaceOrder`: push the line onto
the existing group for its restaurant, or open a new group. -/
def addToGroups (acc : List RestaurantGroup) (item : CartItem) : List RestaurantGroup :=
  if acc.any (fun g => g.restaurantId == item.restaurantId) then
    acc.map (fun g =>
      if g.restaurantId == item.restaurantId then
        { g with items := g.items ++ [item] }
      else g)
  else
    acc ++ [newGroup item]

/-- The grouping-by-restaurant performed by the `items.reduce` in
`handlePlaceOrder`. -/
def groupItemsByRestaurant (items : List CartItem) : List RestaurantGroup :=
  items.foldl addToGroups []

/-- The value of one cart line: unit price times quantity. -/
def lineTotal (i : CartItem) : Nat :=
  i.price * i.quantity

/-- The per-restaurant total computed in `handlePlaceOrder`:
`items.reduce((sum, item) => sum + item.price * item.quantity, 0)`. -/
def orderTotal (items : List CartItem) : Nat :=
  items.foldl (fun sum i => sum + i.price * i.quantity) 0

/-- The `createOrder` argument built for one restaurant group inside the
checkout loop: always status `pending`, no agent. -/
def draftFromGroup (user : User) (deliveryAddress phone : String)
    (g : RestaurantGroup) : OrderData :=
  { customerId := user.id, customerName := user.name,
    restaurantId := g.restaurantId, restaurantName := g.restaurantName,
    items := g.items, total := orderTotal g.items,
    status := OrderStatus.pending,
    deliveryAddress := deliveryAddress, phone := phone }

/-- All the order-creation requests the checkout produces for a cart:
one per restaurant group. -/
def checkoutDrafts (user : User) (items : List CartItem)
    (deliveryAddress phone : String) : List OrderData :=
  (groupItemsByRestaurant items).map (draftFromGroup user deliveryAddress phone)

/-- Outcome of `handlePlaceOrder`: the silent early return
(`if (!user || items.length === 0) return`), the success path (one
`createOrder` call per draft, then `clearCart`), or the catch branch that
alerts a failure. -/
inductive CheckoutResult where
  | earlyReturn
  | placed (drafts : List OrderData)
  | failed
deriving DecidableEq

/-- `handlePlaceOrder` on the customer orders page: with no user or an empty
cart it returns early; otherwise it groups the cart by restaurant and places
one order per group. -/
def handlePlaceOrder (user : Option User) (items : List CartItem)
    (deliveryAddress phone : String) : CheckoutResult :=
  match user with
  | none => CheckoutResult.earlyReturn
  | some u =>
    if items.isEmpty then CheckoutResult.earlyReturn
    else CheckoutResult.placed (checkoutDrafts u items deliveryAddress phone)

/-- The store writes of a successful checkout: one `createOrder` call per
draft, all within the same event-handler tick (one clock value). -/
def runCheckout (orders : List Order) (drafts : List OrderData) (now : Nat) :
    List Order :=
  drafts.foldl (fun s d => (createOrder s d now).1) orders

/-- The operations exposed by the UI that can touch the order store:
a checkout, the deferred `preparing` update scheduled by `createOrder`,
accepting a delivery, and completing a delivery. -/
inductive Op where
  | checkout (user : Option User) (items : List CartItem) (deliveryAddress phone : String)
  | fireTimer (t : ScheduledUpdate)
  | accept (user : Option User) (orderId : String)
  | complete (user : Option User) (orderId : String)

/-- Effect of one exposed operation on the store at clock `now`. -/
def applyOp (orders : List Order) (op : Op) (now : Nat) : List Order :=
  match op with
  | Op.checkout user items deliveryAddress phone =>
    match handlePlaceOrder user items deliveryAddress phone with
    | CheckoutResult.placed drafts => runCheckout orders drafts now
    | _ => orders
  | Op.fireTimer t => fireScheduledUpdate orders t now
  | Op.accept user orderId => handleAcceptDelivery orders user orderId now
  | Op.complete user orderId => handleCompleteDelivery orders user orderId now

/-- The store reached from the empty store by a sequence of timed operations. -/
def runOps (ops : List (Op × Nat)) : List Order :=
  ops.foldl (fun s e => applyOp s e.1 e.2) []

/-- The per-order property used for the reachability invariant: a pending
order carries no agent reference, and status `ready` is never reached. -/
def agentInv (o : Order) : Prop :=
  (o.status = OrderStatus.pending → o.agentId = none) ∧ o.status ≠ OrderStatus.ready

/-- The partition property of the checkout: group keys are distinct, the keys
are exactly the restaurants of the cart, each draft carries exactly its
restaurant's lines with their own total, and the totals add up to the cart. -/
def partitionSpec (items : List CartItem) (drafts : List OrderData) : Prop :=
  (drafts.map OrderData.restaurantId).Nodup ∧
  (∀ r, r ∈ drafts.map OrderData.restaurantId ↔ r ∈ items.map CartItem.restaurantId) ∧
  (∀ d ∈ drafts, d.items = items.filter (sameRestaurant d.restaurantId) ∧
      d.total = (d.items.map lineTotal).sum) ∧
  (drafts.map OrderData.total).sum = (items.map lineTotal).sum

/-- Invariant of the grouping fold: after consuming the lines `seen`, the
accumulated group keys are distinct, every group holds exactly the seen lines
of its restaurant, and the group keys are exactly the restaurants seen. -/
def groupsInv (seen : List CartItem) (acc : List RestaurantGroup) : Prop :=
  (acc.map RestaurantGroup.restaurantId).Nodup ∧
  (∀ g ∈ acc, g.items = seen.filter (sameRestaurant g.restaurantId)) ∧
  (∀ i ∈ seen, i.restaurantId ∈ acc.map RestaurantGroup.restaurantId) ∧
  (∀ g ∈ acc, g.restaurantId ∈ seen.map CartItem.restaurantId)

/-! Concrete data used by counterexamples and witnesses. -/

/-- A delivery agent. -/
def agentAnn : User := { id := "a1", name := "Ann" }

/-- Another delivery agent. -/
def agentBob : User := { id := "a2", name := "Bob" }

/-- A customer. -/
def carol : User := { id := "c1", name := "Carol" }

/-- A cart line from restaurant `r1`. -/
def burgerLine : CartItem :=
  { id := "m1", name := "Burger", price := 500, quantity := 2,
    restaurantId := "r1", restaurantName := "Grill", image := "b.jpg" }

/-- A cart line from restaurant `r2`. -/
def pizzaLine : CartItem :=
  { id := "m2", name := "Pizza", price := 1000, quantity := 1,
    restaurantId := "r2", restaurantName := "Pizzeria", image := "p.jpg" }

/-- An order already claimed by agent `a1` and in transit. -/
def c1order : Order :=
  { id := "7", customerId := "c1", customerName := "Carol",
    restaurantId := "r1", restaurantName := "Grill",
    items := [burgerLine], total := 1000, status := OrderStatus.in_transit,
    createdAt := 1, updatedAt := 2, deliveryAddress := "Main St", phone := "123",
    agentId := some "a1", agentName := some "Agent a1" }

/-- An order already delivered (a terminal state). -/
def deliveredOrder : Order :=
  { id := "8", customerId := "c1", customerName := "Carol",
    restaurantId := "r1", restaurantName := "Grill",
    items := [burgerLine], total := 1000, status := OrderStatus.delivered,
    createdAt := 1, updatedAt := 3, deliveryAddress := "Main St", phone := "123",
    agentId := some "a1", agentName := some "Agent a1" }

/-- An in-transit order assigned to agent `a1`, used for the authorization
counterexample. -/
def c3order : Order :=
  { id := "9", customerId := "c1", customerName := "Carol",
    restaurantId := "r1", restaurantName := "Grill",
    items := [burgerLine], total := 1000, status := OrderStatus.in_transit,
    createdAt := 1, updatedAt := 2, deliveryAddress := "Main St", phone := "123",
    agentId := some "a1", agentName := some "Agent a1" }

/-- A catalog in which the burger is marked unavailable. -/
def unavailableCatalog : List MenuItem :=
  [{ id := "m1", name := "Burger", price := 500, isAvailable := false }]

/-- An order-creation request whose only line references the unavailable
burger. -/
def c5data : OrderData :=
  { customerId := "c1", customerName := "Carol",
    restaurantId := "r1", restaurantName := "Grill",
    items := [burgerLine], total := 1000, status := OrderStatus.pending,
    deliveryAddress := "Main St", phone := "123" }

/-- An order-creation request that is ready for pickup, restaurant `r1`. -/
def readyData1 : OrderData :=
  { customerId := "c1", customerName := "Carol",
    restaurantId := "r1", restaurantName := "Grill",
    items := [burgerLine], total := 1000, status := OrderStatus.ready,
    deliveryAddress := "Main St", phone := "123" }

/-- An order-creation request that is ready for pickup, restaurant `r2`. -/
def readyData2 : OrderData :=
  { customerId := "c1", customerName := "Carol",
    restaurantId := "r2", restaurantName := "Pizzeria",
    items := [pizzaLine], total := 1000, status := OrderStatus.ready,
    deliveryAddress := "Main St", phone := "123" }

/-- A store holding two ready, unclaimed orders created at instants 1 and 2;
`createOrder` prepends, so the newer order sits in front. -/
def c6store : List Order :=
  (createOrder (createOrder [] readyData1 1).1 readyData2 2).1

/-- A trace of exposed operations: checkout at instant 1, the agent accepts
the order at instant 2, the deferred `preparing` update fires at instant 31. -/
def c7ops : List (Op × Nat) :=
  [(Op.checkout (some carol) [burgerLine] "Main St" "123", 1),
   (Op.accept (some agentAnn) "1", 2),
   (Op.fireTimer { orderId := "1", delayMs := 30000 }, 31)]

/-- The single order the trace `c7ops` leaves in the store: the deferred
`preparing` update fired after the claim, so the order is in `preparing`
while still carrying agent `a1`. -/
def c7result : Order :=
  { id := "1", customerId := "c1", customerName := "Carol",
    restaurantId := "r1", restaurantName := "Grill",
    items := [burgerLine], total := 1000, status := OrderStatus.preparing,
    createdAt := 1, updatedAt := 31, deliveryAddress := "Main St", phone := "123",
    agentId := some "a1", agentName := some "Agent a1" }

/-- A delivered order still carrying its agent, with the id `createOrder`
assigns at instant 5; used to witness the unconditional deferred update. -/
def c9order : Order :=
  { id := "5", customerId := "c1", customerName := "Carol",
    restaurantId := "r1", restaurantName := "Grill",
    items := [burgerLine], total := 1000, status := OrderStatus.delivered,
    createdAt := 5, updatedAt := 6, deliveryAddress := "Main St", phone := "123",
    agentId := some "a1", agentName := some "Agent a1" }

/-! Basic facts about `applyStatusUpdate` and `updateOrderStatus`. -/

theorem applyStatusUpdate_status (st : OrderStatus) (a : Option String) (now : Nat)
    (o : Order) : (applyStatusUpdate st a now o).status = st := by
  unfold applyStatusUpdate
  split <;> rfl

theorem applyStatusUpdate_agentId_of_none (st : OrderStatus) (now : Nat) (o : Order) :
    (applyStatusUpdate st none now o).agentId = o.agentId := by
  unfold applyStatusUpdate
  simp [truthy]

theorem updated_mem_updateOrderStatus (orders : List Order) (o : Order)
    (st : OrderStatus) (a : Option String) (now : Nat) (ho : o ∈ orders) :
    applyStatusUpdate st a now o ∈ updateOrderStatus orders o.id st a now := by
  unfold updateOrderStatus
  exact List.mem_map.mpr ⟨o, ho, by simp⟩

theorem unmatched_mem_updateOrderStatus (orders : List Order) (o2 : Order)
    (oid : String) (st : OrderStatus) (a : Option String) (now : Nat)
    (ho : o2 ∈ orders) (hne : o2.id ≠ oid) :
    o2 ∈ updateOrderStatus orders oid st a now := by
  unfold updateOrderStatus
  exact List.mem_map.mpr ⟨o2, ho, by simp [hne]⟩

theorem mem_updateOrderStatus_elim (orders : List Order) (oid : String)
    (st : OrderStatus) (a : Option String) (now : Nat) (o2 : Order)
    (h : o2 ∈ updateOrderStatus orders oid st a now) :
    o2 ∈ orders ∨ ∃ o, o ∈ orders ∧ o2 = applyStatusUpdate st a now o := by
  unfold updateOrderStatus at h
  rcases List.mem_map.mp h with ⟨o, ho, heq⟩
  by_cases hid : o.id = oid
  · right
    exact ⟨o, ho, by rw [← heq, if_pos hid]⟩
  · left
    rw [← heq, if_neg hid]
    exact ho

/-- C10: for an order id absent from the store, `updateOrderStatus` reports
no error and returns every stored order unchanged. -/
theorem update_missing_id_noop (orders : List Order) (orderId : String)
    (st : OrderStatus) (a : Option String) (now : Nat)
    (h : ∀ o ∈ orders, o.id ≠ orderId) :
    updateOrderStatus orders orderId st a now = orders := by
  unfold updateOrderStatus
  induction orders with
  | nil => rfl
  | cons o os ih =>
    rw [List.map_cons, if_neg (h o (by simp)),
        ih (fun x hx => h x (by simp [hx]))]

theorem update_missing_id_noop_witness :
    (∀ o ∈ [c1order], o.id ≠ "42") ∧
    updateOrderStatus [c1order] "42" OrderStatus.delivered none 9 = [c1order] :=
  ⟨by decide, update_missing_id_noop [c1order] "42" OrderStatus.delivered none 9 (by decide)⟩

/-- C8 counterexample: on an empty cart the checkout handler returns early
with no error outcome — it does not fail, contrary to the claimed
`EmptyCartError`. -/
theorem empty_cart_no_error :
    handlePlaceOrder (some carol) [] "Main St" "123" = CheckoutResult.earlyReturn ∧
    CheckoutResult.earlyReturn ≠ CheckoutResult.failed := by
  refine ⟨rfl, by decide⟩

/-- C8 amended: for every empty cart the checkout handler returns early,
creating no orders and performing no store write, but it raises no error —
the empty cart is silently ignored. -/
theorem empty_cart_early_return (user : Option User) (deliveryAddress phone : String) :
    handlePlaceOrder user [] deliveryAddress phone = CheckoutResult.earlyReturn := by
  cases user <;> rfl

/-- C2 counterexample: from the terminal status `delivered`, the
status-update operation happily moves the order to `pending` — an edge absent
from the state table — instead of failing and leaving the order unchanged. -/
theorem delivered_to_pending_succeeds :
    deliveredOrder.status = OrderStatus.delivered ∧
    (updateOrderStatus [deliveredOrder] deliveredOrder.id OrderStatus.pending
        none 9).map Order.status = [OrderStatus.pending] := by
  decide

/-- C2 amended: `updateOrderStatus` performs no transition validation — for
every `(from, to)` pair of the six statuses, legal edge or not, including
self-transitions and transitions out of `delivered` and `cancelled`, the
matching order's status is set to `to` and no error is ever raised. -/
theorem update_ignores_state_table (orders : List Order) (o : Order)
    (src tgt : OrderStatus) (a : Option String) (now : Nat)
    (ho : o ∈ orders) (_hs : o.status = src) :
    applyStatusUpdate tgt a now o ∈ updateOrderStatus orders o.id tgt a now ∧
    (applyStatusUpdate tgt a now o).status = tgt :=
  ⟨updated_mem_updateOrderStatus orders o tgt a now ho,
   applyStatusUpdate_status tgt a now o⟩

theorem update_ignores_state_table_witness :
    deliveredOrder ∈ [deliveredOrder] ∧
    deliveredOrder.status = OrderStatus.delivered ∧
    (applyStatusUpdate OrderStatus.pending none 9 deliveredOrder ∈
        updateOrderStatus [deliveredOrder] deliveredOrder.id OrderStatus.pending none 9 ∧
     (applyStatusUpdate OrderStatus.pending none 9 deliveredOrder).status =
        OrderStatus.pending) :=
  ⟨by decide, by decide,
   update_ignores_state_table [deliveredOrder] deliveredOrder OrderStatus.delivered
     OrderStatus.pending none 9 (by decide) (by decide)⟩

/-- C1 counterexample: `c1order` is already claimed by agent `a1` and in
transit, yet a second claim by agent `a2` succeeds, changes the order, and
overwrites its agent reference — no `ClaimConflictError` occurs. -/
theorem second_claim_succeeds_and_overwrites :
    c1order.status = OrderStatus.in_transit ∧
    c1order.agentId = some "a1" ∧
    (handleAcceptDelivery [c1order] (some agentBob) c1order.id 9).map Order.agentId =
      [some "a2"] ∧
    handleAcceptDelivery [c1order] (some agentBob) c1order.id 9 ≠ [c1order] := by
  decide

/-- C1 amended: the claim operation checks nothing — for any logged-in agent
with a nonempty id and any stored order, whatever its current status and
whoever its current agent is, accepting sets the order's status to
`in_transit` and its agent reference to the caller, overwriting any previous
agent; every other order is untouched, and no failure path exists. -/
theorem accept_overwrites_any_claim (orders : List Order) (u : User) (o : Order)
    (now : Nat) (ho : o ∈ orders) (hu : u.id ≠ "") :
    applyStatusUpdate OrderStatus.in_transit (some u.id) now o ∈
        handleAcceptDelivery orders (some u) o.id now ∧
    (applyStatusUpdate OrderStatus.in_transit (some u.id) now o).status =
        OrderStatus.in_transit ∧
    (applyStatusUpdate OrderStatus.in_transit (some u.id) now o).agentId = some u.id ∧
    ∀ o2 ∈ orders, o2.id ≠ o.id →
      o2 ∈ handleAcceptDelivery orders (some u) o.id now := by
  have htru : truthy (some u.id) = true := by
    simp [truthy, hu]
  refine ⟨updated_mem_updateOrderStatus orders o OrderStatus.in_transit (some u.id) now ho,
    applyStatusUpdate_status OrderStatus.in_transit (some u.id) now o, ?_, ?_⟩
  · simp [applyStatusUpdate, htru]
  · intro o2 ho2 hne
    exact unmatched_mem_updateOrderStatus orders o2 o.id OrderStatus.in_transit
      (some u.id) now ho2 hne

theorem accept_overwrites_any_claim_witness :
    c1order ∈ [c1order] ∧ agentBob.id ≠ "" ∧
    (applyStatusUpdate OrderStatus.in_transit (some agentBob.id) 9 c1order ∈
        handleAcceptDelivery [c1order] (some agentBob) c1order.id 9 ∧
     (applyStatusUpdate OrderStatus.in_transit (some agentBob.id) 9 c1order).status =
        OrderStatus.in_transit ∧
     (applyStatusUpdate OrderStatus.in_transit (some agentBob.id) 9 c1order).agentId =
        some agentBob.id ∧
     ∀ o2 ∈ [c1order], o2.id ≠ c1order.id →
       o2 ∈ handleAcceptDelivery [c1order] (some agentBob) c1order.id 9) :=
  ⟨by decide, by decide,
   accept_overwrites_any_claim [c1order] agentBob c1order 9 (by decide) (by decide)⟩

/-- C3 counterexample: `c3order` is in transit, assigned to agent `a1`; the
complete-delivery handler invoked in agent `a2`'s session succeeds and marks
the order delivered, rather than failing with `ForbiddenError` and leaving
the order unchanged. -/
theorem unassigned_agent_completes_delivery :
    c3order.agentId = some "a1" ∧
    agentBob.id = "a2" ∧
    (handleCompleteDelivery [c3order] (some agentBob) c3order.id 9).map
        (fun o => (o.status, o.agentId)) = [(OrderStatus.delivered, some "a1")] := by
  decide

/-- C3 amended: no authorization is enforced — the complete-delivery handler
ignores the session user entirely (its result is the same whoever, if anyone,
is logged in), and the matching order is marked delivered regardless of which
agent is assigned to it; no `ForbiddenError` path exists. -/
theorem complete_delivery_no_auth (orders : List Order) (u1 u2 : Option User)
    (o : Order) (now : Nat) (ho : o ∈ orders) :
    handleCompleteDelivery orders u1 o.id now =
        handleCompleteDelivery orders u2 o.id now ∧
    applyStatusUpdate OrderStatus.delivered none now o ∈
        handleCompleteDelivery orders u1 o.id now ∧
    (applyStatusUpdate OrderStatus.delivered none now o).status =
        OrderStatus.delivered ∧
    (applyStatusUpdate OrderStatus.delivered none now o).agentId = o.agentId :=
  ⟨rfl,
   updated_mem_updateOrderStatus orders o OrderStatus.delivered none now ho,
   applyStatusUpdate_status OrderStatus.delivered none now o,
   applyStatusUpdate_agentId_of_none OrderStatus.delivered now o⟩

theorem complete_delivery_no_auth_witness :
    c3order ∈ [c3order] ∧
    (handleCompleteDelivery [c3order] (some agentBob) c3order.id 9 =
        handleCompleteDelivery [c3order] none c3order.id 9 ∧
     applyStatusUpdate OrderStatus.delivered none 9 c3order ∈
        handleCompleteDelivery [c3order] (some agentBob) c3order.id 9 ∧
     (applyStatusUpdate OrderStatus.delivered none 9 c3order).status =
        OrderStatus.delivered ∧
     (applyStatusUpdate OrderStatus.delivered none 9 c3order).agentId =
        c3order.agentId) :=
  ⟨by decide,
   complete_delivery_no_auth [c3order] (some agentBob) none c3order 9 (by decide)⟩

/-- C9: `createOrder` schedules a callback with a 30000 ms delay targeting the
order it just created, and firing that callback sets the order's status to
`preparing` unconditionally — whatever the order's status is at that moment
(cancelled, claimed or delivered included), its agent reference untouched. -/
theorem scheduled_update_sets_preparing_unconditionally
    (orders : List Order) (d : OrderData) (now : Nat)
    (later : List Order) (o : Order) (now2 : Nat)
    (ho : o ∈ later) (hid : o.id = (createOrder orders d now).2.2.orderId) :
    (createOrder orders d now).2.2.delayMs = 30000 ∧
    (createOrder orders d now).2.2.orderId = (createOrder orders d now).2.1 ∧
    applyStatusUpdate OrderStatus.preparing none now2 o ∈
        fireScheduledUpdate later (createOrder orders d now).2.2 now2 ∧
    (applyStatusUpdate OrderStatus.preparing none now2 o).status =
        OrderStatus.preparing ∧
    (applyStatusUpdate OrderStatus.preparing none now2 o).agentId = o.agentId := by
  refine ⟨rfl, rfl, ?_, applyStatusUpdate_status OrderStatus.preparing none now2 o,
    applyStatusUpdate_agentId_of_none OrderStatus.preparing now2 o⟩
  unfold fireScheduledUpdate
  rw [← hid]
  exact updated_mem_updateOrderStatus later o OrderStatus.preparing none now2 ho

theorem scheduled_update_sets_preparing_unconditionally_witness :
    c9order ∈ [c9order] ∧
    c9order.id = (createOrder [] c5data 5).2.2.orderId ∧
    ((createOrder [] c5data 5).2.2.delayMs = 30000 ∧
     (createOrder [] c5data 5).2.2.orderId = (createOrder [] c5data 5).2.1 ∧
     applyStatusUpdate OrderStatus.preparing none 99 c9order ∈
        fireScheduledUpdate [c9order] (createOrder [] c5data 5).2.2 99 ∧
     (applyStatusUpdate OrderStatus.preparing none 99 c9order).status =
        OrderStatus.preparing ∧
     (applyStatusUpdate OrderStatus.preparing none 99 c9order).agentId =
        c9order.agentId) :=
  ⟨by decide, by decide,
   scheduled_update_sets_preparing_unconditionally [] c5data 5 [c9order] c9order 99
     (by decide) (by decide)⟩

/-- C5 counterexample: the only line of `c5data` references menu item `m1`,
which the catalog marks unavailable, yet `createOrder` persists the order —
afterwards exactly one order exists for the request and it carries that
line. -/
theorem order_persisted_despite_unavailable_item :
    c5data.items = [burgerLine] ∧
    itemAvailable unavailableCatalog burgerLine = false ∧
    (createOrder [] c5data 5).1.length = 1 ∧
    (createOrder [] c5data 5).1.map Order.items = [[burgerLine]] := by
  decide

/-- C5 amended: `createOrder` performs no availability validation — it never
consults the catalog, and even when every referenced menu item is unavailable
it persists the new order (with all its lines) unconditionally; no
`ItemUnavailableError` path exists. -/
theorem createOrder_skips_availability_check (catalog : List MenuItem)
    (orders : List Order) (d : OrderData) (now : Nat)
    (_hun : ∀ i ∈ d.items, itemAvailable catalog i = false) :
    newOrderFromData d now ∈ (createOrder orders d now).1 ∧
    (createOrder orders d now).1.length = orders.length + 1 ∧
    (newOrderFromData d now).items = d.items := by
  refine ⟨?_, ?_, rfl⟩
  · exact List.mem_cons_self _ _
  · simp [createOrder]

theorem createOrder_skips_availability_check_witness :
    (∀ i ∈ c5data.items, itemAvailable unavailableCatalog i = false) ∧
    (newOrderFromData c5data 5 ∈ (createOrder [] c5data 5).1 ∧
     (createOrder [] c5data 5).1.length = ([] : List Order).length + 1 ∧
     (newOrderFromData c5data 5).items = c5data.items) :=
  ⟨by decide, createOrder_skips_availability_check unavailableCatalog [] c5data 5 (by decide)⟩

/-- C6 counterexample: two ready, unclaimed orders created at instants 1 and
2; the claimable list returns the newer order first (creation instants `[2, 1]`),
not oldest-created-first. -/
theorem claimable_list_newest_first :
    c6store.map (fun o => (o.createdAt, o.status, truthy o.agentId)) =
      [(2, OrderStatus.ready, false), (1, OrderStatus.ready, false)] ∧
    (getAvailableDeliveries c6store).map Order.createdAt = [2, 1] := by
  decide

/-- C6 amended: `getAvailableDeliveries` returns exactly the stored orders
whose status is `ready` and whose agent reference is not (truthily) set,
preserving store order; since `createOrder` prepends, a store sorted
newest-created-first yields a claimable list that is newest-created-first,
not oldest-first. -/
theorem available_deliveries_filter_and_order (orders : List Order)
    (hsorted : orders.Pairwise (fun a b => b.createdAt ≤ a.createdAt)) :
    (∀ o, o ∈ getAvailableDeliveries orders ↔
        o ∈ orders ∧ o.status = OrderStatus.ready ∧ truthy o.agentId = false) ∧
    (getAvailableDeliveries orders).Pairwise (fun a b => b.createdAt ≤ a.createdAt) := by
  constructor
  · intro o
    simp [getAvailableDeliveries, List.mem_filter]
  · exact List.Pairwise.sublist (List.filter_sublist orders) hsorted

theorem available_deliveries_filter_and_order_witness :
    c6store.Pairwise (fun a b => b.createdAt ≤ a.createdAt) ∧
    ((∀ o, o ∈ getAvailableDeliveries c6store ↔
        o ∈ c6store ∧ o.status = OrderStatus.ready ∧ truthy o.agentId = false) ∧
     (getAvailableDeliveries c6store).Pairwise (fun a b => b.createdAt ≤ a.createdAt)) := by
  have hp : c6store.Pairwise (fun a b => b.createdAt ≤ a.createdAt) := by decide
  exact ⟨hp, available_deliveries_filter_and_order c6store hp⟩

/-! Lemmas about the checkout grouping. -/

theorem map_congr_mem {α β : Type} (l : List α) (f g : α → β)
    (h : ∀ a ∈ l, f a = g a) : l.map f = l.map g := by
  induction l with
  | nil => rfl
  | cons a l ih =>
    rw [List.map_cons, List.map_cons, h a (by simp),
        ih (fun x hx => h x (by simp [hx]))]

theorem sum_map_addf {α : Type} (l : List α) (f g : α → Nat) :
    (l.map (fun x => f x + g x)).sum = (l.map f).sum + (l.map g).sum := by
  induction l with
  | nil => rfl
  | cons a l ih =>
    simp only [List.map_cons, List.sum_cons, ih]
    omega

theorem sum_map_ite_single (rs : List String) (r : String) (v : Nat)
    (hnd : rs.Nodup) (hr : r ∈ rs) :
    (rs.map (fun x => if r == x then v else 0)).sum = v := by
  induction rs with
  | nil => cases hr
  | cons a rs ih =>
    rcases List.nodup_cons.mp hnd with ⟨hna, hnd2⟩
    rcases List.mem_cons.mp hr with h | h
    · subst h
      have hz : ∀ x ∈ rs.map (fun x => if r == x then v else 0), x = 0 := by
        intro x hx
        rcases List.mem_map.mp hx with ⟨y, hy, hxy⟩
        have hne : r ≠ y := fun he => hna (he ▸ hy)
        have hb : (r == y) = false := beq_eq_false_iff_ne.mpr hne
        rw [← hxy, hb]
        rfl
      rw [List.map_cons, List.sum_cons, List.sum_eq_zero hz]
      simp
    · have hb : (r == a) = false := by
        refine beq_eq_false_iff_ne.mpr ?_
        intro he
        exact hna (he ▸ h)
      rw [List.map_cons, List.sum_cons, hb]
      simpa using ih hnd2 h

theorem sum_over_partition (items : List CartItem) (rs : List String)
    (hnd : rs.Nodup) (hcov : ∀ i ∈ items, i.restaurantId ∈ rs) :
    (rs.map (fun r => ((items.filter (sameRestaurant r)).map lineTotal).sum)).sum
      = (items.map lineTotal).sum := by
  induction items with
  | nil =>
    rw [List.map_nil, List.sum_nil]
    apply List.sum_eq_zero
    intro x hx
    rcases List.mem_map.mp hx with ⟨r, _, hxr⟩
    simpa using hxr.symm
  | cons i items ih =>
    have hstep : ∀ r ∈ rs,
        ((List.filter (sameRestaurant r) (i :: items)).map lineTotal).sum
          = (if i.restaurantId == r then lineTotal i else 0)
            + ((items.filter (sameRestaurant r)).map lineTotal).sum := by
      intro r _
      by_cases hb : (i.restaurantId == r) = true
      · simp [List.filter_cons, sameRestaurant, hb]
      · simp [List.filter_cons, sameRestaurant, hb]
    rw [map_congr_mem rs _ _ hstep, sum_map_addf,
        sum_map_ite_single rs i.restaurantId (lineTotal i) hnd (hcov i (by simp)),
        ih (fun x hx => hcov x (by simp [hx]))]
    simp

theorem groupsInv_step (seen : List CartItem) (acc : List RestaurantGroup)
    (i : CartItem) (h : groupsInv seen acc) :
    groupsInv (seen ++ [i]) (addToGroups acc i) := by
  obtain ⟨hnd, hitems, hcov, hkeys⟩ := h
  unfold addToGroups
  by_cases hmem : (acc.any (fun g => g.restaurantId == i.restaurantId)) = true
  · rw [if_pos hmem]
    obtain ⟨g0, hg0, hg0b⟩ := List.any_eq_true.mp hmem
    have hg0r : g0.restaurantId = i.restaurantId := by simpa using hg0b
    have hkeysEq : (acc.map (fun g =>
        if g.restaurantId == i.restaurantId then { g with items := g.items ++ [i] }
        else g)).map RestaurantGroup.restaurantId
          = acc.map RestaurantGroup.restaurantId := by
      rw [List.map_map]
      apply map_congr_mem
      intro g _
      by_cases hb : g.restaurantId = i.restaurantId
      · simp [hb]
      · simp [hb]
    refine ⟨?_, ?_, ?_, ?_⟩
    · rw [hkeysEq]
      exact hnd
    · intro g hg
      rcases List.mem_map.mp hg with ⟨g1, hg1, hge⟩
      by_cases hb : (g1.restaurantId == i.restaurantId) = true
      · have hb2 : g1.restaurantId = i.restaurantId := by simpa using hb
        rw [← hge, if_pos hb]
        show g1.items ++ [i] = (seen ++ [i]).filter (sameRestaurant g1.restaurantId)
        rw [List.filter_append, hitems g1 hg1]
        simp [sameRestaurant, hb2]
      · rw [← hge, if_neg hb]
        have hb2 : g1.restaurantId ≠ i.restaurantId := by simpa using hb
        rw [hitems g1 hg1, List.filter_append]
        have : List.filter (sameRestaurant g1.restaurantId) [i] = [] := by
          simp [sameRestaurant]
          intro he
          exact hb2 he.symm
        rw [this, List.append_nil]
    · intro j hj
      rw [hkeysEq]
      rcases List.mem_append.mp hj with hj1 | hj1
      · exact hcov j hj1
      · have : j = i := by simpa using hj1
        subst this
        rw [← hg0r]
        exact List.mem_map.mpr ⟨g0, hg0, rfl⟩
    · intro g hg
      rcases List.mem_map.mp hg with ⟨g1, hg1, hge⟩
      have hsame : g.restaurantId = g1.restaurantId := by
        rw [← hge]
        by_cases hb : g1.restaurantId = i.restaurantId
        · simp [hb]
        · simp [hb]
      rw [hsame, List.map_append]
      exact List.mem_append_left _ (hkeys g1 hg1)
  · rw [if_neg hmem]
    have hnone : ∀ g ∈ acc, g.restaurantId ≠ i.restaurantId := by
      intro g hg he
      exact hmem (List.any_eq_true.mpr ⟨g, hg, beq_iff_eq.mpr he⟩)
    refine ⟨?_, ?_, ?_, ?_⟩
    · rw [List.map_append]
      rw [List.nodup_append]
      refine ⟨hnd, by simp, ?_⟩
      intro a ha hb
      have hai : a = i.restaurantId := by simpa using hb
      rcases List.mem_map.mp ha with ⟨g, hg, hge⟩
      exact hnone g hg (by rw [hge, hai])
    · intro g hg
      rcases List.mem_append.mp hg with hg1 | hg1
      · rw [hitems g hg1, List.filter_append]
        have : List.filter (sameRestaurant g.restaurantId) [i] = [] := by
          simp [sameRestaurant]
          intro he
          exact hnone g hg1 he.symm
        rw [this, List.append_nil]
      · have hgi : g = newGroup i := by simpa using hg1
        subst hgi
        show [i] = (seen ++ [i]).filter (sameRestaurant i.restaurantId)
        rw [List.filter_append]
        have h1 : List.filter (sameRestaurant i.restaurantId) seen = [] := by
          rw [List.filter_eq_nil_iff]
          intro j hj hb
          have hji : j.restaurantId = i.restaurantId := by
            simpa [sameRestaurant] using hb
          rcases List.mem_map.mp (hcov j hj) with ⟨g1, hg1, hge⟩
          exact hnone g1 hg1 (by rw [hge, hji])
        have h2 : List.filter (sameRestaurant i.restaurantId) [i] = [i] := by
          simp [sameRestaurant]
        rw [h1, h2, List.nil_append]
    · intro j hj
      rw [List.map_append]
      rcases List.mem_append.mp hj with hj1 | hj1
      · exact List.mem_append_left _ (hcov j hj1)
      · have : j = i := by simpa using hj1
        subst this
        apply List.mem_append_right
        exact List.mem_map.mpr ⟨newGroup j, by simp, rfl⟩
    · intro g hg
      rcases List.mem_append.mp hg with hg1 | hg1
      · rw [List.map_append]
        exact List.mem_append_left _ (hkeys g hg1)
      · have hgi : g = newGroup i := by simpa using hg1
        subst hgi
        rw [List.map_append]
        apply List.mem_append_right
        simp [newGroup]

theorem groupsInv_foldl (rest : List CartItem) :
    ∀ (seen : List CartItem) (acc : List RestaurantGroup),
    groupsInv seen acc → groupsInv (seen ++ rest) (rest.foldl addToGroups acc) := by
  induction rest with
  | nil =>
    intro seen acc h
    simpa using h
  | cons i rest ih =>
    intro seen acc h
    have h3 := ih (seen ++ [i]) (addToGroups acc i) (groupsInv_step seen acc i h)
    simpa [List.append_assoc] using h3

theorem groupItemsByRestaurant_inv (items : List CartItem) :
    groupsInv items (groupItemsByRestaurant items) := by
  have h0 : groupsInv [] [] := ⟨by simp, by simp, by simp, by simp⟩
  have h := groupsInv_foldl items [] [] h0
  simpa [groupItemsByRestaurant] using h

theorem foldl_orderTotal (l : List CartItem) :
    ∀ s : Nat, l.foldl (fun sum i => sum + i.price * i.quantity) s
      = s + (l.map lineTotal).sum := by
  induction l with
  | nil =>
    intro s
    simp
  | cons i l ih =>
    intro s
    rw [List.foldl_cons, ih, List.map_cons, List.sum_cons]
    unfold lineTotal
    omega

theorem orderTotal_eq_sum (l : List CartItem) :
    orderTotal l = (l.map lineTotal).sum := by
  unfold orderTotal
  rw [foldl_orderTotal]
  simp

/-- C4: for every non-empty cart, the checkout handler groups the lines by
restaurant and places one order per distinct restaurant: the drafts' keys are
distinct and are exactly the cart's restaurants, each draft carries exactly
its restaurant's lines with total equal to the sum of price times quantity
over those lines, and the drafts' totals add up to the value of the whole
cart. -/
theorem checkout_partitions_by_restaurant (u : User) (items : List CartItem)
    (deliveryAddress phone : String) (hne : items ≠ []) :
    handlePlaceOrder (some u) items deliveryAddress phone =
        CheckoutResult.placed (checkoutDrafts u items deliveryAddress phone) ∧
    partitionSpec items (checkoutDrafts u items deliveryAddress phone) := by
  obtain ⟨hnd, hitems, hcov, hkeys⟩ := groupItemsByRestaurant_inv items
  have hkeysEq : (checkoutDrafts u items deliveryAddress phone).map OrderData.restaurantId
      = (groupItemsByRestaurant items).map RestaurantGroup.restaurantId := by
    unfold checkoutDrafts
    rw [List.map_map]
    rfl
  constructor
  · have hne2 : items.isEmpty = false := by
      cases items with
      | nil => exact absurd rfl hne
      | cons a l => rfl
    simp [handlePlaceOrder, hne2]
  refine ⟨?_, ?_, ?_, ?_⟩
  · rw [hkeysEq]
    exact hnd
  · intro r
    rw [hkeysEq]
    constructor
    · intro hr
      rcases List.mem_map.mp hr with ⟨g, hg, hge⟩
      exact hge ▸ hkeys g hg
    · intro hr
      rcases List.mem_map.mp hr with ⟨j, hj, hje⟩
      exact hje ▸ hcov j hj
  · intro d hd
    unfold checkoutDrafts at hd
    rcases List.mem_map.mp hd with ⟨g, hg, hge⟩
    rw [← hge]
    constructor
    · show g.items = items.filter (sameRestaurant g.restaurantId)
      exact hitems g hg
    · show orderTotal g.items = (g.items.map lineTotal).sum
      exact orderTotal_eq_sum g.items
  · unfold checkoutDrafts
    rw [List.map_map]
    have h2 : (groupItemsByRestaurant items).map
          (OrderData.total ∘ draftFromGroup u deliveryAddress phone)
        = (groupItemsByRestaurant items).map
          (fun g => ((items.filter (sameRestaurant g.restaurantId)).map lineTotal).sum) := by
      apply map_congr_mem
      intro g hg
      show orderTotal g.items = _
      rw [orderTotal_eq_sum, hitems g hg]
    rw [h2]
    have h3 : (groupItemsByRestaurant items).map
          (fun g => ((items.filter (sameRestaurant g.restaurantId)).map lineTotal).sum)
        = ((groupItemsByRestaurant items).map RestaurantGroup.restaurantId).map
          (fun r => ((items.filter (sameRestaurant r)).map lineTotal).sum) := by
      rw [List.map_map]
      rfl
    rw [h3]
    exact sum_over_partition items _ hnd hcov

theorem checkout_partitions_by_restaurant_witness :
    ([burgerLine, pizzaLine] ≠ ([] : List CartItem)) ∧
    (handlePlaceOrder (some carol) [burgerLine, pizzaLine] "Main St" "123" =
        CheckoutResult.placed (checkoutDrafts carol [burgerLine, pizzaLine] "Main St" "123") ∧
     partitionSpec [burgerLine, pizzaLine]
        (checkoutDrafts carol [burgerLine, pizzaLine] "Main St" "123")) :=
  ⟨by decide,
   checkout_partitions_by_restaurant carol [burgerLine, pizzaLine] "Main St" "123"
     (by decide)⟩

/-! Reachability: the agent-reference invariant over the exposed operations. -/

theorem applyStatusUpdate_agentInv (st : OrderStatus) (a : Option String) (now : Nat)
    (o : Order) (hp : st ≠ OrderStatus.pending) (hr : st ≠ OrderStatus.ready) :
    agentInv (applyStatusUpdate st a now o) := by
  constructor
  · intro h
    rw [applyStatusUpdate_status] at h
    exact absurd h hp
  · rw [applyStatusUpdate_status]
    exact hr

theorem updateOrderStatus_preserves_agentInv (orders : List Order) (oid : String)
    (st : OrderStatus) (a : Option String) (now : Nat)
    (hp : st ≠ OrderStatus.pending) (hr : st ≠ OrderStatus.ready)
    (h : ∀ o ∈ orders, agentInv o) :
    ∀ o2 ∈ updateOrderStatus orders oid st a now, agentInv o2 := by
  intro o2 ho2
  rcases mem_updateOrderStatus_elim orders oid st a now o2 ho2 with hin | ⟨o, ho, he⟩
  · exact h o2 hin
  · rw [he]
    exact applyStatusUpdate_agentInv st a now o hp hr

theorem runCheckout_preserves_agentInv (drafts : List OrderData) :
    ∀ (orders : List Order) (now : Nat),
    (∀ d ∈ drafts, d.status = OrderStatus.pending ∧ d.agentId = none) →
    (∀ o ∈ orders, agentInv o) →
    ∀ o2 ∈ runCheckout orders drafts now, agentInv o2 := by
  induction drafts with
  | nil =>
    intro orders now _ h o2 ho2
    exact h o2 (by simpa [runCheckout] using ho2)
  | cons d drafts ih =>
    intro orders now hd h o2 ho2
    have hstep : ∀ o ∈ (createOrder orders d now).1, agentInv o := by
      intro o ho
      rcases List.mem_cons.mp (by simpa [createOrder] using ho) with he | hin
      · obtain ⟨hds, hda⟩ := hd d (by simp)
        rw [he]
        constructor
        · intro _
          exact hda
        · show (newOrderFromData d now).status ≠ OrderStatus.ready
          have hst : (newOrderFromData d now).status = d.status := rfl
          rw [hst, hds]
          decide
      · exact h o hin
    have hrest := ih (createOrder orders d now).1 now
      (fun x hx => hd x (by simp [hx])) hstep
    exact hrest o2 (by simpa [runCheckout] using ho2)

theorem handlePlaceOrder_drafts_pending (user : Option User) (items : List CartItem)
    (deliveryAddress phone : String) (drafts : List OrderData)
    (h : handlePlaceOrder user items deliveryAddress phone = CheckoutResult.placed drafts) :
    ∀ d ∈ drafts, d.status = OrderStatus.pending ∧ d.agentId = none := by
  intro d hd
  cases user with
  | none => exact absurd h (by simp [handlePlaceOrder])
  | some u =>
    by_cases he : items.isEmpty = true
    · have hh : handlePlaceOrder (some u) items deliveryAddress phone =
          CheckoutResult.earlyReturn := by
        simp [handlePlaceOrder, he]
      rw [hh] at h
      cases h
    · have hh : handlePlaceOrder (some u) items deliveryAddress phone =
          CheckoutResult.placed (checkoutDrafts u items deliveryAddress phone) := by
        simp [handlePlaceOrder, he]
      rw [hh] at h
      have hd2 : drafts = checkoutDrafts u items deliveryAddress phone := by
        injection h with h1
        exact h1.symm
      subst hd2
      rcases List.mem_map.mp (by simpa [checkoutDrafts] using hd) with ⟨g, _, hge⟩
      rw [← hge]
      exact ⟨rfl, rfl⟩

theorem applyOp_preserves_agentInv (orders : List Order) (op : Op) (now : Nat)
    (h : ∀ o ∈ orders, agentInv o) :
    ∀ o2 ∈ applyOp orders op now, agentInv o2 := by
  cases op with
  | checkout user items deliveryAddress phone =>
    simp only [applyOp]
    cases hres : handlePlaceOrder user items deliveryAddress phone with
    | earlyReturn => exact h
    | placed drafts =>
      exact runCheckout_preserves_agentInv drafts orders now
        (handlePlaceOrder_drafts_pending user items deliveryAddress phone drafts hres) h
    | failed => exact h
  | fireTimer t =>
    simp only [applyOp]
    exact updateOrderStatus_preserves_agentInv orders t.orderId OrderStatus.preparing
      none now (by decide) (by decide) h
  | accept user oid =>
    simp only [applyOp]
    cases user with
    | none => exact h
    | some u =>
      exact updateOrderStatus_preserves_agentInv orders oid OrderStatus.in_transit
        (some u.id) now (by decide) (by decide) h
  | complete user oid =>
    simp only [applyOp]
    exact updateOrderStatus_preserves_agentInv orders oid OrderStatus.delivered
      none now (by decide) (by decide) h

/-- C7 counterexample: through exposed operations only — checkout, a claim,
then the deferred `preparing` update scheduled at creation — the store
reaches a state whose single order is in status `preparing` while its agent
reference is set, so the claimed `iff` (agent set exactly in `in_transit` or
a terminal state reached from it) fails. -/
theorem preparing_order_with_agent_reachable :
    (runOps c7ops).map (fun o => (o.status, o.agentId)) =
      [(OrderStatus.preparing, some "a1")] := by
  decide

/-- C7 amended: for every order reachable from the empty store through the
exposed operations, a `pending` order never carries an agent reference, and
no reachable order is ever in status `ready` (nothing in the code sets it);
the claimed `iff` fails because later updates — the deferred `preparing`
update and complete-delivery — keep the agent reference while changing the
status. -/
theorem reachable_orders_agent_invariant (ops : List (Op × Nat)) :
    ∀ o ∈ runOps ops,
      (o.status = OrderStatus.pending → o.agentId = none) ∧
      o.status ≠ OrderStatus.ready := by
  have main : ∀ (ops2 : List (Op × Nat)) (s : List Order),
      (∀ o ∈ s, agentInv o) →
      ∀ o ∈ ops2.foldl (fun s2 e => applyOp s2 e.1 e.2) s, agentInv o := by
    intro ops2
    induction ops2 with
    | nil =>
      intro s h
      simpa using h
    | cons e ops2 ih =>
      intro s h
      exact ih (applyOp s e.1 e.2) (applyOp_preserves_agentInv s e.1 e.2 h)
  intro o ho
  exact main ops [] (by simp) o (by simpa [runOps] using ho)

theorem reachable_orders_agent_invariant_witness :
    c7result ∈ runOps c7ops ∧
    ((c7result.status = OrderStatus.pending → c7result.agentId = none) ∧
     c7result.status ≠ OrderStatus.ready) :=
  ⟨by decide, reachable_orders_agent_invariant c7ops c7result (by decide)⟩

end SmartBite
